import Mathlib

/-!
Shallow embedding of the retrieval layer in
src/src/database/enhanced_vector_db.py (class EnhancedVectorDB).

Modelling conventions:
- Python floats are modelled as real numbers.
- Metadata dicts are association lists observed only through key lookup
  (every operation of the class reads metadata via dict.get or json text
  extraction, never via iteration order).
- The Ollama embedding provider is a function String → Option (List ℝ);
  the value none models every failure mode that the try/except around the
  provider call absorbs (network error, missing "embedding" key).
- The persisted flat file is a FileState: missing, malformed (fails to
  parse), or good with a list of records.
- Exceptions never escape the public methods (each one wraps its body in
  try/except); the embedding is therefore total, and the error branches
  are modelled by the values the handlers return.
-/

namespace EnhancedVectorDB

/-- Scalar metadata values (strings and integers are the kinds the class
itself writes and the claims exercise). -/
inductive Val where
  | str (s : String)
  | int (n : Int)
  deriving DecidableEq, Repr

/-- A Python dict of string keys, as an association list.  Key order is
never observed: every read in the source goes through dict.get. -/
abbrev Metadata := List (String × Val)

/-- dict.get: the value stored under a key, or none. -/
def Metadata.get (m : Metadata) (k : String) : Option Val :=
  (m.find? (fun p => p.1 == k)).map (fun p => p.2)

/-- dict key assignment (one key of dict.update): replaces any existing
binding of the key.  Represented canonically with the fresh binding in
front; no operation of the class observes key order. -/
def Metadata.set (m : Metadata) (k : String) (v : Val) : Metadata :=
  (k, v) :: m.filter (fun p => p.1 != k)

theorem Metadata.get_set_self (m : Metadata) (k : String) (v : Val) :
    Metadata.get (Metadata.set m k v) k = some v := by
  simp [Metadata.get, Metadata.set]

theorem Metadata.find?_filter_ne (m : Metadata) (k k2 : String) (h : k2 ≠ k) :
    (m.filter (fun p => p.1 != k)).find? (fun p => p.1 == k2) =
      m.find? (fun p => p.1 == k2) := by
  induction m with
  | nil => rfl
  | cons p m ih =>
      by_cases hk : p.1 = k
      · have h1 : (p.1 != k) = false := by simp [hk]
        have h2 : (p.1 == k2) = false := by simp [hk, Ne.symm h]
        simp [List.filter_cons, h1, List.find?_cons, h2, ih]
      · have h1 : (p.1 != k) = true := by simp [hk]
        by_cases hk2 : p.1 = k2
        · subst hk2
          simp [List.filter_cons, List.find?_cons, hk]
        · have h2 : (p.1 == k2) = false := by simp [hk2]
          simp [List.filter_cons, h1, List.find?_cons, h2, ih]

theorem Metadata.get_set_other (m : Metadata) (k k2 : String) (v : Val)
    (h : k2 ≠ k) :
    Metadata.get (Metadata.set m k v) k2 = Metadata.get m k2 := by
  have h2 : (k == k2) = false := by simp [Ne.symm h]
  simp [Metadata.get, Metadata.set, List.find?_cons, h2,
    Metadata.find?_filter_ne m k k2 h]

/-- One stored chunk record of the vector store (the unit of both the
flat-file JSON array and the document_embeddings table). -/
structure Record where
  document_name : String
  chunk_text : String
  embedding : List ℝ
  metadata : Metadata

/-- A transient search result: dict with chunk_text, score, metadata. -/
structure SearchResult where
  chunk_text : String
  score : ℝ
  metadata : Metadata

/-- The Ollama embedding provider; none models any failure the
surrounding try/except absorbs. -/
abbrev Provider := String → Option (List ℝ)

/-- EnhancedVectorDB._embed_text: call the provider, and on failure
return the zero vector; truncate or right-pad the returned vector so its
length is exactly embed_dim. -/
def embed_text (f : Provider) (embed_dim : Nat) (text : String) : List ℝ :=
  match f text with
  | none => List.replicate embed_dim 0
  | some v =>
      if v.length ≠ embed_dim then
        if v.length > embed_dim then v.take embed_dim
        else v ++ List.replicate (embed_dim - v.length) 0
      else v

/-- np.dot on equal-length float vectors. -/
def dot (a b : List ℝ) : ℝ := (List.zipWith (fun x y => x * y) a b).sum

/-- np.linalg.norm: the Euclidean norm. -/
noncomputable def normv (a : List ℝ) : ℝ := Real.sqrt (dot a a)

/-- EnhancedVectorDB._cosine_similarity: dot product over the product of
norms, with the zero-denominator case mapped to 0.0. -/
noncomputable def cosine_similarity (a b : List ℝ) : ℝ :=
  if normv a * normv b = 0 then 0 else dot a b / (normv a * normv b)

theorem dot_self_nonneg (a : List ℝ) : 0 ≤ dot a a := by
  induction a with
  | nil => simp [dot]
  | cons x a ih =>
      have hx : 0 ≤ x * x := mul_self_nonneg x
      simpa [dot] using add_nonneg hx ih

theorem dot_replicate_zero_left (n : Nat) (b : List ℝ) :
    dot (List.replicate n 0) b = 0 := by
  induction n generalizing b with
  | zero => simp [dot]
  | succ n ih =>
      cases b with
      | nil => simp [dot]
      | cons y b => simpa [dot, List.replicate_succ] using ih b

theorem normv_replicate_zero (n : Nat) : normv (List.replicate n 0) = 0 := by
  simp [normv, dot_replicate_zero_left, Real.sqrt_zero]

theorem cosine_similarity_zero_left (n : Nat) (b : List ℝ) :
    cosine_similarity (List.replicate n 0) b = 0 := by
  simp [cosine_similarity, normv_replicate_zero]

theorem embed_text_length (f : Provider) (embed_dim : Nat) (text : String) :
    (embed_text f embed_dim text).length = embed_dim := by
  unfold embed_text
  cases hf : f text with
  | none => simp
  | some v =>
      by_cases h : v.length = embed_dim
      · simp [h]
      · by_cases hgt : v.length > embed_dim
        · simp [h, hgt, Nat.min_eq_left (Nat.le_of_lt hgt)]
        · have hle : v.length ≤ embed_dim := Nat.le_of_not_lt hgt
          simp [h, hgt, Nat.add_sub_cancel' hle]

/-- The persisted flat file: missing, unparseable, or a parsed list of
records. -/
inductive FileState where
  | missing
  | malformed
  | good (records : List Record)

/-- EnhancedVectorDB._json_load: a missing or unparseable file loads as
the empty store; any exception is absorbed by the bare except. -/
def json_load : FileState → List Record
  | .missing => []
  | .malformed => []
  | .good records => records

/-- The descending-score order used by results.sort with a score key and
reverse=True. -/
def scoreGe (a b : SearchResult) : Prop := b.score ≤ a.score

noncomputable instance : DecidableRel scoreGe :=
  fun a b => Real.decidableLE b.score a.score

instance : IsTotal SearchResult scoreGe :=
  ⟨fun a b => le_total b.score a.score⟩

instance : IsTrans SearchResult scoreGe :=
  ⟨fun _ _ _ h1 h2 => le_trans h2 h1⟩

/-- Python str.split with no argument: split on whitespace, dropping
empty pieces. -/
def pySplit (s : String) : List String :=
  (s.split Char.isWhitespace).filter (fun w => w != "")

/-- set of s.lower().split(): the distinct lowercased words. -/
def pyWords (s : String) : List String := (pySplit s.toLower).dedup

/-- Keyword-overlap score of _rerank_results: size of the intersection of
the distinct query words with the distinct chunk words, over the number
of distinct query words; 0 for an empty query word set. -/
noncomputable def overlap (query text : String) : ℝ :=
  let qw := pyWords query
  let tw := pyWords text
  if qw.isEmpty then 0
  else ((qw.filter (fun w => decide (w ∈ tw))).length : ℝ) / (qw.length : ℝ)

/-- Score update of _rerank_results: score * 0.7 + overlap * 0.3. -/
noncomputable def rescore (query : String) (r : SearchResult) : SearchResult :=
  { r with score := r.score * 0.7 + overlap query r.chunk_text * 0.3 }

/-- EnhancedVectorDB._rerank_results: update every score by keyword
overlap, then re-sort descending with the stable Python sort (modelled by
insertion sort, which is stable).  The lim argument mirrors the unused
limit parameter of the source; truncation happens in the callers. -/
noncomputable def rerank_results (query : String) (results : List SearchResult)
    (lim : Nat) : List SearchResult :=
  (results.map (rescore query)).insertionSort scoreGe

/-- The filter stage of _search_json: with a non-empty filters dict keep
the records whose metadata holds exactly the filter value under every
filter key; an empty dict is falsy, so no filtering happens. -/
def applyFilters (records : List Record) (filters : List (String × Val)) :
    List Record :=
  if filters.isEmpty then records
  else records.filter
    (fun r => filters.all (fun kv => Metadata.get r.metadata kv.1 == some kv.2))

/-- EnhancedVectorDB._search_json: load, filter, score every record by
cosine similarity against the query embedding, sort descending (stable),
widen to limit * 2 when reranking, optionally rerank, truncate. -/
noncomputable def search_json (f : Provider) (embed_dim : Nat) (fs : FileState)
    (query : String) (limit : Nat) (filters : List (String × Val))
    (rerank : Bool) : List SearchResult :=
  let records := json_load fs
  if records.isEmpty then []
  else
    let records1 := applyFilters records filters
    if records1.isEmpty then []
    else
      let query_emb := embed_text f embed_dim query
      let results := records1.map (fun r =>
        { chunk_text := r.chunk_text,
          score := cosine_similarity query_emb r.embedding,
          metadata := r.metadata })
      let sorted := results.insertionSort scoreGe
      let top := sorted.take (if rerank then limit * 2 else limit)
      let top1 := if rerank then rerank_results query top limit else top
      top1.take limit

/-- EnhancedVectorDB.search_similar on the flat-file backend
(use_postgres false); the surrounding try/except absorbs every
exception, which the totality of the model reflects. -/
noncomputable def search_similar (f : Provider) (embed_dim : Nat)
    (fs : FileState) (query : String) (limit : Nat)
    (filters : List (String × Val)) (rerank : Bool) : List SearchResult :=
  search_json f embed_dim fs query limit filters rerank

/-- EnhancedVectorDB.store_document on the flat-file backend: mutate the
metadata dict of the caller with timestamp, document_name and num_chunks,
embed each chunk, append one record per chunk (with chunk_index added on
a copy of the dict) and persist.  now stands for the
datetime.now().isoformat() string; the returned pair is the post-call
store and the post-call value of the metadata argument of the caller. -/
def store_document (f : Provider) (embed_dim : Nat) (now : String)
    (fs : FileState) (chunks : List String) (document_name : String)
    (metadata : Metadata) : FileState × Metadata :=
  let md := Metadata.set (Metadata.set (Metadata.set metadata
    "timestamp" (.str now)) "document_name" (.str document_name))
    "num_chunks" (.int chunks.length)
  let records := json_load fs
  let newRecords := chunks.enum.map (fun p =>
    { document_name := document_name,
      chunk_text := p.2,
      embedding := embed_text f embed_dim p.2,
      metadata := Metadata.set md "chunk_index" (.int p.1) : Record })
  (.good (records ++ newRecords), md)

/-- The dict returned by get_document_stats. -/
structure Stats where
  total_chunks : Nat
  total_documents : Nat
  deriving DecidableEq, Repr

/-- EnhancedVectorDB.get_document_stats on the flat-file backend: record
count and number of distinct document names. -/
def get_document_stats (fs : FileState) : Stats :=
  let records := json_load fs
  { total_chunks := records.length,
    total_documents := ((records.map (fun r => r.document_name)).toFinset).card }

/-- EnhancedVectorDB.delete_document on the flat-file backend: keep the
records of other documents, persist, and return True (_json_save absorbs
its own errors, so this path always reports success). -/
def delete_document (fs : FileState) (document_name : String) :
    FileState × Bool :=
  (.good ((json_load fs).filter (fun r => r.document_name != document_name)),
    true)

/-- One entry of list_documents. -/
structure DocInfo where
  name : String
  chunks : Nat
  last_updated : Option Val
  deriving DecidableEq, Repr

/-- Sort key of list_documents: the timestamp string, with a missing
timestamp replaced by the empty string.  The class only ever writes
string timestamps, so the non-string case is not reachable from its own
writes. -/
def luKey : Option Val → String
  | some (.str s) => s
  | _ => ""

/-- Aggregation loop of list_documents on the flat-file backend: one
entry per document in first-seen order; the chunk count is incremented
for every record; last_updated is taken from the metadata timestamp of
the first record seen for the document and never updated again. -/
def docFold (acc : List DocInfo) (r : Record) : List DocInfo :=
  if acc.any (fun d => d.name == r.document_name) then
    acc.map (fun d =>
      if d.name == r.document_name then { d with chunks := d.chunks + 1 } else d)
  else
    acc ++ [{ name := r.document_name, chunks := 1,
              last_updated := Metadata.get r.metadata "timestamp" }]

/-- EnhancedVectorDB.list_documents on the flat-file backend: aggregate,
then sort by timestamp descending (missing timestamps as the empty
string, which sorts last) with the stable Python sort. -/
def list_documents (fs : FileState) : List DocInfo :=
  let docs := (json_load fs).foldl docFold []
  docs.insertionSort (fun a b => luKey b.last_updated ≤ luKey a.last_updated)

/-- The text produced by the ->> json operator for a stored scalar. -/
def Val.pgText : Val → String
  | .str s => s
  | .int n => toString n

/-- Python str of a filter value, as bound into the SQL query by
_search_postgres. -/
def Val.pyStr : Val → String
  | .str s => s
  | .int n => toString n

/-- One metadata condition of the _search_postgres WHERE clause:
metadata->>key = str(value); an absent key yields SQL NULL, which never
compares equal. -/
def pg_matches (m : Metadata) (k : String) (v : Val) : Bool :=
  match Metadata.get m k with
  | some w => Val.pgText w == Val.pyStr v
  | none => false

/-- The WHERE stage of _search_postgres (AND over the filter items; no
WHERE clause when the filters dict is empty or absent). -/
def scanPg (rows : List Record) (filters : List (String × Val)) : List Record :=
  if filters.isEmpty then rows
  else rows.filter (fun r => filters.all (fun kv => pg_matches r.metadata kv.1 kv.2))

/-- The pgvector l2 distance, the <-> operator of the SQL query. -/
noncomputable def l2dist (a b : List ℝ) : ℝ :=
  Real.sqrt ((List.zipWith (fun x y => (x - y) * (x - y)) a b).sum)

/-- EnhancedVectorDB._search_postgres: the semantics of the SQL query
(WHERE filters, ORDER BY distance, LIMIT) over the table rows, followed
by the similarity conversion 1 - distance and the optional rerank.  SQL
leaves the relative order of equal distances unspecified; a stable sort
is one refinement of it. -/
noncomputable def search_postgres (f : Provider) (embed_dim : Nat)
    (rows : List Record) (query : String) (limit : Nat)
    (filters : List (String × Val)) (rerank : Bool) : List SearchResult :=
  let query_emb := embed_text f embed_dim query
  let rows1 := scanPg rows filters
  let sorted := @List.insertionSort Record
    (fun a b => l2dist query_emb a.embedding ≤ l2dist query_emb b.embedding)
    (fun _ _ => Real.decidableLE _ _) rows1
  let fetched := sorted.take (if rerank then limit * 2 else limit)
  let results := fetched.map (fun r =>
    { chunk_text := r.chunk_text,
      score := 1 - l2dist query_emb r.embedding,
      metadata := r.metadata })
  let results1 := if rerank then rerank_results query results limit else results
  results1.take limit

/-- get_document_stats on the relational backend: COUNT and
COUNT DISTINCT over the table rows. -/
def pg_stats (rows : List Record) : Stats :=
  { total_chunks := rows.length,
    total_documents := ((rows.map (fun r => r.document_name)).dedup).length }

/-- delete_document on the relational backend: DELETE WHERE
document_name matches, returning True on completion. -/
def pg_delete (rows : List Record) (document_name : String) :
    List Record × Bool :=
  (rows.filter (fun r => r.document_name != document_name), true)

/-- The overlap formula in the words of the specification: size of the
intersection of the set of lowercased query words with the set of
lowercased candidate words, over the size of the query word set; 0 when
the query has zero distinct words. -/
noncomputable def overlapSpec (query text : String) : ℝ :=
  let q := (pySplit query.toLower).toFinset
  let t := (pySplit text.toLower).toFinset
  if q.card = 0 then 0 else ((q ∩ t).card : ℝ) / (q.card : ℝ)

/-- The maximum metadata timestamp among the chunks of a document, in the
words of the specification (timestamps are the ISO strings the class
writes, compared lexicographically). -/
def maxTimestamp (records : List Record) (document_name : String) :
    Option String :=
  ((records.filter (fun r => r.document_name == document_name)).filterMap
    (fun r => match Metadata.get r.metadata "timestamp" with
      | some (.str s) => some s
      | _ => none)).max?

/-- C2: the similarity score is dot(a,b)/(normv a * normv b) when both
norms are nonzero and exactly 0 when either norm is zero (no
division-by-zero error); consequently orthogonal vectors score 0 and an
identical nonzero vector paired with itself scores 1. -/
theorem cosine_similarity_spec (a b : List ℝ) :
    (normv a ≠ 0 → normv b ≠ 0 →
      cosine_similarity a b = dot a b / (normv a * normv b))
    ∧ (normv a = 0 ∨ normv b = 0 → cosine_similarity a b = 0)
    ∧ (dot a b = 0 → cosine_similarity a b = 0)
    ∧ (dot a a ≠ 0 → cosine_similarity a a = 1) := by
  refine ⟨?_, ?_, ?_, ?_⟩
  · intro ha hb
    rw [cosine_similarity, if_neg (mul_ne_zero ha hb)]
  · intro h
    have hd : normv a * normv b = 0 := by
      rcases h with h | h
      · rw [h, zero_mul]
      · rw [h, mul_zero]
    rw [cosine_similarity, if_pos hd]
  · intro h
    rw [cosine_similarity]
    split
    · rfl
    · rw [h, zero_div]
  · intro h
    have hnn : 0 ≤ dot a a := dot_self_nonneg a
    have hden : normv a * normv a = dot a a := by
      rw [normv, Real.mul_self_sqrt hnn]
    rw [cosine_similarity, hden, if_neg h, div_self h]

/-- C2 witness: orthogonal vectors score 0 and an identical nonzero
vector scores 1, at concrete inputs. -/
theorem cosine_similarity_spec_witness :
    cosine_similarity [(1 : ℝ), 0] [0, 1] = 0
    ∧ cosine_similarity [(1 : ℝ), 0] [1, 0] = 1 := by
  constructor
  · exact (cosine_similarity_spec [(1 : ℝ), 0] [0, 1]).2.2.1 (by norm_num [dot])
  · exact (cosine_similarity_spec [(1 : ℝ), 0] [1, 0]).2.2.2 (by norm_num [dot])

/-- C4: every stored chunk embedding has exactly embed_dim components
regardless of the provider output: provider vectors are right-padded
with zeros or truncated at write time (failures become the zero vector),
and store_document preserves the all-records dimension invariant. -/
theorem embedding_dimension_invariant (f : Provider) (embed_dim : Nat)
    (text : String) :
    (embed_text f embed_dim text).length = embed_dim
    ∧ (∀ v, f text = some v → v.length ≤ embed_dim →
        embed_text f embed_dim text = v ++ List.replicate (embed_dim - v.length) 0)
    ∧ (∀ v, f text = some v → embed_dim ≤ v.length →
        embed_text f embed_dim text = v.take embed_dim)
    ∧ (∀ now fs chunks document_name metadata,
        (∀ r ∈ json_load fs, r.embedding.length = embed_dim) →
        ∀ r ∈ json_load
          (store_document f embed_dim now fs chunks document_name metadata).1,
          r.embedding.length = embed_dim) := by
  refine ⟨embed_text_length f embed_dim text, ?_, ?_, ?_⟩
  · intro v hv hle
    have he : embed_text f embed_dim text =
        if v.length ≠ embed_dim then
          (if v.length > embed_dim then v.take embed_dim
           else v ++ List.replicate (embed_dim - v.length) 0)
        else v := by
      unfold embed_text
      rw [hv]
    rw [he]
    by_cases h : v.length = embed_dim
    · rw [if_neg (by simp [h]), h]
      simp
    · rw [if_pos h, if_neg (by omega)]
  · intro v hv hle
    have he : embed_text f embed_dim text =
        if v.length ≠ embed_dim then
          (if v.length > embed_dim then v.take embed_dim
           else v ++ List.replicate (embed_dim - v.length) 0)
        else v := by
      unfold embed_text
      rw [hv]
    rw [he]
    by_cases h : v.length = embed_dim
    · rw [if_neg (by simp [h]), ← h, List.take_length]
    · rw [if_pos h, if_pos (by omega)]
  · intro now fs chunks document_name metadata hinv r hr
    have hr2 : r ∈ json_load fs ∨
        r ∈ chunks.enum.map (fun p =>
          ({ document_name := document_name, chunk_text := p.2,
             embedding := embed_text f embed_dim p.2,
             metadata := Metadata.set (Metadata.set (Metadata.set
               (Metadata.set metadata "timestamp" (.str now))
               "document_name" (.str document_name))
               "num_chunks" (.int chunks.length)) "chunk_index" (.int p.1) }
            : Record)) := by
      simpa [store_document, json_load] using hr
    rcases hr2 with h | h
    · exact hinv r h
    · rcases List.mem_map.mp h with ⟨p, _, hp⟩
      rw [← hp]
      exact embed_text_length f embed_dim p.2

/-- C4 witness: a provider returning one component too few is
right-padded to length 2, and one returning one too many is truncated;
storing into an empty store yields only records of dimension 2. -/
theorem embedding_dimension_invariant_witness :
    embed_text (fun _ => some [5]) 2 "x" = [(5 : ℝ)] ++ List.replicate 1 0
    ∧ embed_text (fun _ => some [5, 6, 7]) 2 "x" = [(5 : ℝ), 6, 7].take 2
    ∧ ∀ r ∈ json_load
        (store_document (fun _ => some [5]) 2 "T" .missing ["c"] "d" []).1,
        r.embedding.length = 2 := by
  refine ⟨?_, ?_, ?_⟩
  · exact (embedding_dimension_invariant (fun _ => some [5]) 2 "x").2.1 [5] rfl
      (by norm_num)
  · exact (embedding_dimension_invariant (fun _ => some [5, 6, 7]) 2 "x").2.2.1
      [5, 6, 7] rfl (by norm_num)
  · exact (embedding_dimension_invariant (fun _ => some [5]) 2 "c").2.2.2
      "T" .missing ["c"] "d" [] (by intro r hr; cases hr)

/-- C10: store_document mutates the caller-supplied metadata dict in
place: after the call it holds the keys timestamp, document_name and
num_chunks (the latter equal to the number of chunks), overwriting any
prior values under those keys, while every other key keeps its prior
value. -/
theorem store_document_metadata_mutation (f : Provider) (embed_dim : Nat)
    (now : String) (fs : FileState) (chunks : List String)
    (document_name : String) (metadata : Metadata) :
    Metadata.get
        (store_document f embed_dim now fs chunks document_name metadata).2
        "timestamp" = some (.str now)
    ∧ Metadata.get
        (store_document f embed_dim now fs chunks document_name metadata).2
        "document_name" = some (.str document_name)
    ∧ Metadata.get
        (store_document f embed_dim now fs chunks document_name metadata).2
        "num_chunks" = some (.int chunks.length)
    ∧ ∀ k, k ≠ "timestamp" → k ≠ "document_name" → k ≠ "num_chunks" →
        Metadata.get
          (store_document f embed_dim now fs chunks document_name metadata).2 k
          = Metadata.get metadata k := by
  refine ⟨?_, ?_, ?_, ?_⟩
  · show Metadata.get (Metadata.set (Metadata.set (Metadata.set metadata
      "timestamp" (.str now)) "document_name" (.str document_name))
      "num_chunks" (.int chunks.length)) "timestamp" = some (.str now)
    rw [Metadata.get_set_other _ _ _ _ (by decide),
      Metadata.get_set_other _ _ _ _ (by decide),
      Metadata.get_set_self]
  · show Metadata.get (Metadata.set (Metadata.set (Metadata.set metadata
      "timestamp" (.str now)) "document_name" (.str document_name))
      "num_chunks" (.int chunks.length)) "document_name"
      = some (.str document_name)
    rw [Metadata.get_set_other _ _ _ _ (by decide), Metadata.get_set_self]
  · exact Metadata.get_set_self _ _ _
  · intro k h1 h2 h3
    show Metadata.get (Metadata.set (Metadata.set (Metadata.set metadata
      "timestamp" (.str now)) "document_name" (.str document_name))
      "num_chunks" (.int chunks.length)) k = Metadata.get metadata k
    rw [Metadata.get_set_other _ _ _ _ h3, Metadata.get_set_other _ _ _ _ h2,
      Metadata.get_set_other _ _ _ _ h1]

/-- C10 witness: at a concrete call the dict of the caller afterwards holds
the fresh timestamp (the prior one was overwritten), num_chunks 2, and
its unrelated key is untouched. -/
theorem store_document_metadata_mutation_witness :
    Metadata.get (store_document (fun _ => none) 1 "T2" .missing
        ["c1", "c2"] "doc" [("timestamp", .str "T1"), ("extra", .int 5)]).2
      "timestamp" = some (.str "T2")
    ∧ Metadata.get (store_document (fun _ => none) 1 "T2" .missing
        ["c1", "c2"] "doc" [("timestamp", .str "T1"), ("extra", .int 5)]).2
      "num_chunks" = some (.int 2)
    ∧ Metadata.get (store_document (fun _ => none) 1 "T2" .missing
        ["c1", "c2"] "doc" [("timestamp", .str "T1"), ("extra", .int 5)]).2
      "extra" = some (.int 5) := by
  refine ⟨?_, ?_, ?_⟩
  · exact (store_document_metadata_mutation (fun _ => none) 1 "T2" .missing
      ["c1", "c2"] "doc" [("timestamp", .str "T1"), ("extra", .int 5)]).1
  · exact (store_document_metadata_mutation (fun _ => none) 1 "T2" .missing
      ["c1", "c2"] "doc" [("timestamp", .str "T1"), ("extra", .int 5)]).2.2.1
  · rw [(store_document_metadata_mutation (fun _ => none) 1 "T2" .missing
      ["c1", "c2"] "doc" [("timestamp", .str "T1"), ("extra", .int 5)]).2.2.2
      "extra" (by decide) (by decide) (by decide)]
    decide

/-- C7: delete_document removes every record of the named document,
keeps all other records unchanged and in order, and returns True on
completion even when nothing matched; on the flat-file path a False
return is impossible (so False only on storage failure holds
vacuously). -/
theorem delete_document_spec (fs : FileState) (document_name : String) :
    (delete_document fs document_name).2 = true
    ∧ (∀ r ∈ json_load (delete_document fs document_name).1,
        r.document_name ≠ document_name)
    ∧ (∀ r ∈ json_load fs, r.document_name ≠ document_name →
        r ∈ json_load (delete_document fs document_name).1)
    ∧ List.Sublist (json_load (delete_document fs document_name).1)
        (json_load fs) := by
  refine ⟨rfl, ?_, ?_, ?_⟩
  · intro r hr
    have h := List.of_mem_filter
      (p := fun r : Record => r.document_name != document_name)
      (by simpa [delete_document, json_load] using hr)
    simpa using h
  · intro r hr h
    show r ∈ (json_load fs).filter (fun r => r.document_name != document_name)
    exact List.mem_filter.mpr ⟨hr, by simpa using h⟩
  · exact List.filter_sublist _

/-- A chunk record of document a, used by the C7 witness. -/
def delRecordA : Record :=
  { document_name := "a", chunk_text := "ca", embedding := [], metadata := [] }

/-- A chunk record of document b, used by the C7 witness. -/
def delRecordB : Record :=
  { document_name := "b", chunk_text := "cb", embedding := [], metadata := [] }

/-- C7 witness: deleting document a from a two-document store returns
True and keeps the record of document b. -/
theorem delete_document_spec_witness :
    (delete_document (.good [delRecordA, delRecordB]) "a").2 = true
    ∧ delRecordB ∈
      json_load (delete_document (.good [delRecordA, delRecordB]) "a").1 := by
  constructor
  · exact (delete_document_spec (.good [delRecordA, delRecordB]) "a").1
  · exact (delete_document_spec (.good [delRecordA, delRecordB]) "a").2.2.1 _
      (List.mem_cons_of_mem _ (List.mem_cons_self _ _)) (by decide)

/-- C9: a malformed persisted file is treated as an empty store: loading
yields no records and every read operation returns its empty-store
value; no error reaches the caller (the model is total). -/
theorem malformed_file_empty_store (f : Provider) (embed_dim : Nat)
    (query : String) (limit : Nat) (filters : List (String × Val))
    (rerank : Bool) :
    json_load .malformed = []
    ∧ search_similar f embed_dim .malformed query limit filters rerank = []
    ∧ get_document_stats .malformed = { total_chunks := 0, total_documents := 0 }
    ∧ list_documents .malformed = [] := by
  exact ⟨rfl, rfl, rfl, rfl⟩

/-- First chunk of the document stored at 2024-01-01 (C5 failing input). -/
def tsRecord1 : Record :=
  { document_name := "a", chunk_text := "c1", embedding := [],
    metadata := [("timestamp", .str "2024-01-01")] }

/-- Second chunk of the same document stored at 2024-01-02 (C5 failing
input). -/
def tsRecord2 : Record :=
  { document_name := "a", chunk_text := "c2", embedding := [],
    metadata := [("timestamp", .str "2024-01-02")] }

/-- C5: on the flat-file backend list_documents reports as last_updated
the timestamp of the first record seen for a document, not the maximum
among its chunks: with chunks timestamped 2024-01-01 and 2024-01-02 it
reports 2024-01-01 while the maximum is 2024-01-02 (the relational path
computes MAX, so the two backends also disagree here). -/
theorem list_documents_first_timestamp_bug :
    list_documents (.good [tsRecord1, tsRecord2]) =
      [{ name := "a", chunks := 2, last_updated := some (.str "2024-01-01") }]
    ∧ maxTimestamp [tsRecord1, tsRecord2] "a" = some "2024-01-02" := by
  constructor
  · rfl
  · have hle : ("2024-01-01" : String) ≤ "2024-01-02" := by
      rw [String.le_iff_toList_le]
      decide
    have h1 : maxTimestamp [tsRecord1, tsRecord2] "a" =
        some (max "2024-01-01" "2024-01-02") := rfl
    rw [h1, max_eq_right hle]

/-- A provider that always fails (unreachable Ollama host). -/
def failProvider : Provider := fun _ => none

/-- A single stored record, used by the C1 counterexample and witness. -/
def cexRecord : Record :=
  { document_name := "d", chunk_text := "A", embedding := [1, 0],
    metadata := [] }

/-- C1 counterexample: with a non-empty store and an unreachable
embedding provider, search_similar returns a non-empty list (the query
embedding degrades to the zero vector and every stored record is still
returned, scored 0), not the empty sequence the claim requires. -/
theorem search_similar_unreachable_nonempty :
    search_similar failProvider 2 (.good [cexRecord]) "q" 5 [] false ≠ [] :=
  List.cons_ne_nil _ _

/-- C1 amended: search_similar never raises (the model is total) and
returns the empty list when the store holds no records or when no record
passes the filters; an unreachable embedding provider does not empty the
result: the query embedding degrades to the zero vector, so without
reranking every returned result carries similarity score 0. -/
theorem search_similar_graceful_degradation (f : Provider) (embed_dim : Nat)
    (fs : FileState) (query : String) (limit : Nat)
    (filters : List (String × Val)) (rerank : Bool) :
    (json_load fs = [] →
      search_similar f embed_dim fs query limit filters rerank = [])
    ∧ (applyFilters (json_load fs) filters = [] →
      search_similar f embed_dim fs query limit filters rerank = [])
    ∧ (f query = none →
      ∀ r ∈ search_similar f embed_dim fs query limit filters false,
        r.score = 0) := by
  refine ⟨?_, ?_, ?_⟩
  · intro h
    simp [search_similar, search_json, h]
  · intro h
    by_cases h1 : (json_load fs).isEmpty
    · simp [search_similar, search_json, h1]
    · simp [search_similar, search_json, h1, h]
  · intro hf r hr
    have hq : embed_text f embed_dim query = List.replicate embed_dim 0 := by
      unfold embed_text
      rw [hf]
    by_cases h1 : (json_load fs).isEmpty
    · simp [search_similar, search_json, h1] at hr
    · by_cases h2 : (applyFilters (json_load fs) filters).isEmpty
      · simp [search_similar, search_json, h1, h2] at hr
      · simp only [search_similar, search_json, h1, h2, Bool.false_eq_true,
          if_false] at hr
        have hr2 := List.take_subset _ _ hr
        have hr3 := List.take_subset _ _ hr2
        have hr4 := ((List.perm_insertionSort scoreGe _).mem_iff).1 hr3
        rcases List.mem_map.mp hr4 with ⟨rec, _, hrec⟩
        rw [← hrec]
        show cosine_similarity (embed_text f embed_dim query) rec.embedding = 0
        rw [hq]
        exact cosine_similarity_zero_left embed_dim rec.embedding

/-- C1 amended witness: an empty store and an all-excluding filter each
yield the empty list at concrete calls, and with the unreachable
provider the concretely returned result carries score 0. -/
theorem search_similar_graceful_degradation_witness :
    search_similar failProvider 2 .missing "q" 5 [] true = []
    ∧ search_similar failProvider 2 (.good [cexRecord]) "q" 5
        [("x", .str "y")] true = []
    ∧ ({ chunk_text := "A",
         score := cosine_similarity (embed_text failProvider 2 "q") [1, 0],
         metadata := [] } : SearchResult).score = 0 := by
  refine ⟨?_, ?_, ?_⟩
  · exact (search_similar_graceful_degradation failProvider 2 .missing
      "q" 5 [] true).1 rfl
  · exact (search_similar_graceful_degradation failProvider 2
      (.good [cexRecord]) "q" 5 [("x", .str "y")] true).2.1 rfl
  · exact (search_similar_graceful_degradation failProvider 2
      (.good [cexRecord]) "q" 5 [] true).2.2 rfl _ (List.mem_cons_self _ _)

/-- A record whose metadata stores the integer 7, used by the C6
counterexample and witness. -/
def coercionRecord : Record :=
  { document_name := "d", chunk_text := "C", embedding := [],
    metadata := [("num_chunks", .int 7)] }

/-- C6 counterexample: the relational WHERE clause considers a record
whose metadata does not contain the filter pair: the stored integer 7
under num_chunks matches the filter string value "7" after the text
casts of metadata->>key and str(value). -/
theorem scan_filter_string_coercion_cex :
    scanPg [coercionRecord] [("num_chunks", .str "7")] = [coercionRecord]
    ∧ Metadata.get coercionRecord.metadata "num_chunks" ≠ some (.str "7") := by
  constructor
  · rfl
  · decide

/-- C6 amended: the flat-file scan keeps exactly the records whose
metadata holds the exact filter value under every filter key (AND
semantics; every record when the dict is empty or absent), in stored
order; the relational scan instead matches a filter pair when the text
cast of the stored value equals str of the filter value (absent keys
never match), so values of different kinds can compare equal. -/
theorem scan_filter_semantics (records : List Record)
    (filters : List (String × Val)) :
    (∀ r, r ∈ applyFilters records filters ↔
      r ∈ records ∧ ∀ kv ∈ filters, Metadata.get r.metadata kv.1 = some kv.2)
    ∧ List.Sublist (applyFilters records filters) records
    ∧ (∀ r, r ∈ scanPg records filters ↔
      r ∈ records ∧ ∀ kv ∈ filters, pg_matches r.metadata kv.1 kv.2 = true)
    ∧ List.Sublist (scanPg records filters) records := by
  refine ⟨?_, ?_, ?_, ?_⟩
  · intro r
    by_cases h : filters.isEmpty
    · have h0 : filters = [] := by
        cases filters with
        | nil => rfl
        | cons kv l => simp [List.isEmpty] at h
      subst h0
      simp [applyFilters]
    · simp [applyFilters, h, List.mem_filter, List.all_eq_true]
  · by_cases h : filters.isEmpty
    · rw [applyFilters, if_pos h]
    · rw [applyFilters, if_neg h]
      exact List.filter_sublist _
  · intro r
    by_cases h : filters.isEmpty
    · have h0 : filters = [] := by
        cases filters with
        | nil => rfl
        | cons kv l => simp [List.isEmpty] at h
      subst h0
      simp [scanPg]
    · simp [scanPg, h, List.mem_filter, List.all_eq_true]
  · by_cases h : filters.isEmpty
    · rw [scanPg, if_pos h]
    · rw [scanPg, if_neg h]
      exact List.filter_sublist _

/-- C6 witness: a record matching an exact-equality filter is kept by
the flat-file scan at a concrete input. -/
theorem scan_filter_semantics_witness :
    coercionRecord ∈ applyFilters [coercionRecord] [("num_chunks", .int 7)] := by
  exact ((scan_filter_semantics [coercionRecord]
      [("num_chunks", .int 7)]).1 coercionRecord).mpr
    ⟨List.mem_cons_self _ _, by decide⟩

/-- A stored row with an integer metadata value, used by the C8
counterexample. -/
def parityRow : Record :=
  { document_name := "d", chunk_text := "C", embedding := [1],
    metadata := [("k", .int 3)] }

/-- A provider returning the one-component vector 1. -/
def oneProvider : Provider := fun _ => some [1]

/-- C8 counterexample: replaying the same stored content and the same
search call against the two backends returns different chunk texts: the
flat-file scan rejects the row under the string filter value "3" against
the stored integer 3, while the relational WHERE clause accepts it after
text casts, so one backend returns no result and the other returns the
row. -/
theorem backend_parity_cex :
    search_similar oneProvider 1 (.good [parityRow]) "q" 1
        [("k", .str "3")] false = []
    ∧ search_postgres oneProvider 1 [parityRow] "q" 1
        [("k", .str "3")] false ≠ [] := by
  constructor
  · rfl
  · exact List.cons_ne_nil _ _

/-- C8 amended: the two backends agree on delete (same surviving rows,
same True return) and on stats (same chunk and document counts); they do
not agree in general on filtered search results (text-cast versus exact
filter matching, 1 - l2 distance versus cosine scoring) nor on
list_documents timestamps. -/
theorem backend_parity_amended (rows : List Record) (document_name : String) :
    pg_stats rows = get_document_stats (.good rows)
    ∧ (pg_delete rows document_name).1 =
        json_load (delete_document (.good rows) document_name).1
    ∧ (pg_delete rows document_name).2 =
        (delete_document (.good rows) document_name).2 := by
  refine ⟨?_, rfl, rfl⟩
  simp only [pg_stats, get_document_stats, json_load, List.card_toFinset]

theorem overlap_eq_overlapSpec (query text : String) :
    overlap query text = overlapSpec query text := by
  have aux1 : (pySplit query.toLower).toFinset.card = (pyWords query).length := by
    rw [List.card_toFinset]
    rfl
  have aux2 : ((pySplit query.toLower).toFinset ∩
        (pySplit text.toLower).toFinset).card
      = ((pyWords query).filter (fun w => decide (w ∈ pyWords text))).length := by
    rw [← Finset.filter_mem_eq_inter]
    have hnod : ((pyWords query).filter
        (fun w => decide (w ∈ pyWords text))).Nodup :=
      (List.nodup_dedup _).filter _
    rw [← List.toFinset_card_of_nodup hnod, List.toFinset_filter]
    congr 1
    ext x
    simp [pyWords, List.mem_toFinset, List.mem_dedup, Finset.mem_filter]
  rw [overlap, overlapSpec]
  by_cases h : (pyWords query).isEmpty
  · have hl : (pyWords query).length = 0 := by
      cases he : pyWords query with
      | nil => rfl
      | cons a l => rw [he] at h; simp [List.isEmpty] at h
    rw [if_pos h, if_pos (by rw [aux1, hl])]
  · have hl : (pyWords query).length ≠ 0 := by
      cases he : pyWords query with
      | nil => rw [he] at h; simp [List.isEmpty] at h
      | cons a l => simp
    rw [if_neg h, if_neg (by rw [aux1]; exact hl), aux2, aux1]

/-- C3: reranking gives every candidate the blended score 0.7 times the
original similarity plus 0.3 times the lexical overlap (stated with the
overlap formula written from the specification), re-sorts the candidates
descending by new score with a stable sort, and after the caller-side
truncation returns at most k results, still in descending order. -/
theorem rerank_results_spec (query : String) (results : List SearchResult)
    (k : Nat) :
    ((rerank_results query results k).take k).length = min k results.length
    ∧ List.Sorted scoreGe ((rerank_results query results k).take k)
    ∧ (rerank_results query results k).Perm (results.map (rescore query))
    ∧ (∀ r ∈ results, (rescore query r).score =
        0.7 * r.score + 0.3 * overlapSpec query r.chunk_text)
    ∧ (∀ c, List.Sublist c (results.map (rescore query)) →
        c.Pairwise scoreGe → List.Sublist c (rerank_results query results k)) := by
  refine ⟨?_, ?_, ?_, ?_, ?_⟩
  · rw [rerank_results, List.length_take, List.length_insertionSort,
      List.length_map]
  · exact List.Pairwise.sublist (List.take_sublist _ _)
      (List.sorted_insertionSort scoreGe _)
  · exact List.perm_insertionSort scoreGe _
  · intro r hr
    show r.score * 0.7 + overlap query r.chunk_text * 0.3 =
      0.7 * r.score + 0.3 * overlapSpec query r.chunk_text
    rw [overlap_eq_overlapSpec]
    ring
  · intro c hc hp
    exact List.sublist_insertionSort hp hc

/-- A candidate result used by the C3 witness. -/
def overlapResult : SearchResult :=
  { chunk_text := "a b", score := 1, metadata := [] }

/-- C3 witness: at a concrete query and one-candidate list the truncated
rerank output has length 1, the concrete candidate receives the blended
score, and the empty list is a stable sublist of the output. -/
theorem rerank_results_spec_witness :
    ((rerank_results "a" [overlapResult] 1).take 1).length = 1
    ∧ (rescore "a" overlapResult).score =
        0.7 * 1 + 0.3 * overlapSpec "a" "a b"
    ∧ List.Sublist [] (rerank_results "a" [overlapResult] 1) := by
  refine ⟨?_, ?_, ?_⟩
  · have h := (rerank_results_spec "a" [overlapResult] 1).1
    simpa using h
  · have h := (rerank_results_spec "a" [overlapResult] 1).2.2.2.1
      overlapResult (List.mem_cons_self _ _)
    simpa [overlapResult] using h
  · exact (rerank_results_spec "a" [overlapResult] 1).2.2.2.2 []
      (List.nil_sublist _) List.Pairwise.nil

end EnhancedVectorDB
